import Mathlib

/-!
Verification of MuGo's `sgf_wrapper.py`: extraction of (position, next move,
result) records from an SGF game tree.

The embedding follows the source file line by line.  The collaborators
`go.py` (`Position`, `place_stone`, `deduce_groups`) and `utils.py`
(`parse_sgf_coords`) are part of the repository but are not available here;
they are modelled from the specification's interface description and are
marked `Modelled from the spec:` below.  Python exceptions are modelled with
`Except PyErr`; the Python value `None` is modelled with `Option`.
-/

namespace MuGo

/-- Python exceptions that the embedded code can raise. -/
inductive PyErr where
  | keyError (k : String)
  | indexError
  | attributeError (a : String)
  | assertionError (msg : String)
  | typeError
  | valueError
deriving DecidableEq, Repr

/-- The value returned by `sgf_prop`: Python `None`, a single string, or a
list of strings (the raw value list itself, possibly empty). -/
inductive SgfVal where
  | none
  | str (s : String)
  | list (l : List String)
deriving DecidableEq, Repr

/-- Absolute stone colors as recorded in the SGF file. -/
inductive Color where
  | B
  | W
deriving DecidableEq, Repr

/-- A board coordinate (row, column). -/
abbrev Coord := Nat × Nat

/-- A board: a mapping from coordinate to stone color
(1 = black / player one, -1 = white, 0 = empty). -/
abbrev Board := Coord → Int

/-- Modelled from the spec: group/connectivity metadata, derived from a
board by `deduce_groups`.  Its internal structure belongs to the external
board collaborator and is unspecified, so it is modelled as a wrapper
remembering the board it was derived from. -/
structure Groups where
  ofBoard : Board

/-- Modelled from the spec: `deduce_groups(board) -> group_metadata`. -/
def deduce_groups (board : Board) : Groups := ⟨board⟩

/-- Modelled from the spec: `place_stone(board, color, coordinate) -> board`;
setup-only placement with no capture resolution and no legality check. -/
def place_stone (board : Board) (color : Int) (c : Coord) : Board :=
  fun x => if x = c then color else board x

/-- Modelled from the spec: the Position collaborator.  A full board state,
group metadata derived from the board, the turn-indicator flag
(`player1turn` = true means the first player, Black, is to move), and the
komi compensation value. -/
structure Position where
  board : Board
  groups : Groups
  player1turn : Bool
  komi : Rat

/-- Modelled from the spec: `Position.initial(board_size)`; the empty board
with Black to move.  The default komi is left at 0; the walker overwrites it
from the root's komi property before use. -/
def Position.initial_state : Position :=
  { board := fun _ => 0
    groups := deduce_groups (fun _ => 0)
    player1turn := true
    komi := 0 }

/-- Modelled from the spec:
`Position.apply_move(coordinate_or_pass) -> Position | absent-on-illegal-move`.
The collaborator places a stone of the color whose turn it is, alternates the
turn indicator automatically, and rederives group metadata; an absent
coordinate is a pass.  Move legality and capture resolution belong to the
out-of-scope Go rules; illegality is modelled as the target point being
occupied. -/
def Position.play_move (pos : Position) (c : Option Coord) : Option Position :=
  match c with
  | Option.none => Option.some { pos with player1turn := !pos.player1turn }
  | Option.some coord =>
    if pos.board coord ≠ 0 then
      Option.none
    else
      let b := place_stone pos.board (if pos.player1turn then 1 else -1) coord
      Option.some { pos with board := b, groups := deduce_groups b,
                             player1turn := !pos.player1turn }

/-- Modelled from the spec: `decode_coordinate(raw_string, board_size)`;
`utils.parse_sgf_coords`.  An empty raw value denotes a pass and decodes to
an absent coordinate; otherwise the two letters give (row, column) with "aa"
the top-left corner. -/
def pc (s : String) : Option Coord :=
  match s.data with
  | c0 :: c1 :: _ => Option.some (c1.toNat - 97, c0.toNat - 97)
  | _ => Option.none

/-- A node of the SGF game tree, as produced by the external `sgf` parsing
library and consumed by this core: a property map (key to raw value list)
and the first child used for main-branch traversal.  Only the first-child
chain is relevant to the source, so a node is either a tail node (`last`) or
carries its next node (`cons`); `Node.next` recovers the
`next_child() -> Node | absent` interface. -/
inductive Node where
  | last (properties : List (String × List String))
  | cons (properties : List (String × List String)) (next : Node)

/-- The node's property map. -/
def Node.properties : Node → List (String × List String)
  | Node.last props => props
  | Node.cons props _ => props

/-- The node's first child (Python `node.next`), or absent at the tail. -/
def Node.next : Node → Option Node
  | Node.last _ => Option.none
  | Node.cons _ n => Option.some n

/-- `sgf_prop` (src/sgf_wrapper.py lines 20-27): converts raw sgf library
output to a sensible value.  `None` maps to `None`; a one-element list maps
to its element; any other list (the empty list included) is returned as is. -/
def sgf_prop (value_list : Option (List String)) : SgfVal :=
  match value_list with
  | Option.none => SgfVal.none
  | Option.some [v] => SgfVal.str v
  | Option.some l => SgfVal.list l

/-- The loop bodies of `handle_add_stones` (src/sgf_wrapper.py lines 37-40):
place every raw coordinate of the list onto the working board with the given
color.  A raw value whose decoding fails would make Python index the board
with `None`, modelled as a `typeError`. -/
def placeAll (color : Int) : Board → List String → Except PyErr Board
  | board, [] => Except.ok board
  | board, s :: rest =>
    match pc s with
    | Option.none => Except.error PyErr.typeError
    | Option.some c => placeAll color (place_stone board color c) rest

/-- `handle_add_stones` (src/sgf_wrapper.py lines 33-44): apply the `AB` and
`AW` setup-stone properties, black stones first; if at least one stone was
added, return the position with the new board and freshly recomputed groups,
otherwise return the input position unchanged. -/
def handle_add_stones (pos : Position) (node : Node) : Except PyErr Position :=
  let black_stones_added := (node.properties.lookup "AB").getD []
  let white_stones_added := (node.properties.lookup "AW").getD []
  match placeAll 1 pos.board black_stones_added with
  | Except.error e => Except.error e
  | Except.ok b1 =>
    match placeAll (-1) b1 white_stones_added with
    | Except.error e => Except.error e
    | Except.ok working_board =>
      if black_stones_added ≠ [] ∨ white_stones_added ≠ [] then
        Except.ok { pos with board := working_board,
                             groups := deduce_groups working_board }
      else
        Except.ok pos

/-- `get_next_move` (src/sgf_wrapper.py lines 46-53).  With no next child the
result is `(None, None)`.  Otherwise the next child's `W` property is tried
first, then its `B` property; the raw value `props[k][0] or None` turns the
empty string (a pass) into `None`.  A missing `B` key raises `KeyError`, an
empty value list raises `IndexError`, exactly as Python's `props['B'][0]`
does. -/
def get_next_move (node : Node) : Except PyErr (Option Color × Option String) :=
  match node.next with
  | Option.none => Except.ok (Option.none, Option.none)
  | Option.some nxt =>
    let props := nxt.properties
    match props.lookup "W" with
    | Option.some [] => Except.error PyErr.indexError
    | Option.some (v :: _) =>
      Except.ok (Option.some Color.W, if v = "" then Option.none else Option.some v)
    | Option.none =>
      match props.lookup "B" with
      | Option.none => Except.error (PyErr.keyError "B")
      | Option.some [] => Except.error PyErr.indexError
      | Option.some (v :: _) =>
        Except.ok (Option.some Color.B, if v = "" then Option.none else Option.some v)

/-- Lines 59-63 of `handle_play_stones`: apply the node's `W` move if
present, else its `B` move, through `play_move` (which may return an absent
position on an illegal move); a node with neither property leaves the
position untouched. -/
def playRecorded (pos : Position) (node : Node) : Except PyErr (Option Position) :=
  match node.properties.lookup "W" with
  | Option.some [] => Except.error PyErr.indexError
  | Option.some (v :: _) => Except.ok (pos.play_move (pc v))
  | Option.none =>
    match node.properties.lookup "B" with
    | Option.some [] => Except.error PyErr.indexError
    | Option.some (v :: _) => Except.ok (pos.play_move (pc v))
    | Option.none => Except.ok (Option.some pos)

/-- `handle_play_stones` (src/sgf_wrapper.py lines 58-69): apply the node's
`W` or `B` move through `play_move` (which may return an absent position on
an illegal move), then force-correct the turn indicator against the next
node's recorded color.  When the position is absent and a next color exists,
Python evaluates `pos.player1turn` on `None` and raises `AttributeError`. -/
def handle_play_stones (pos : Position) (node : Node) : Except PyErr (Option Position) :=
  match playRecorded pos node with
  | Except.error e => Except.error e
  | Except.ok pos1 =>
    match get_next_move node with
    | Except.error e => Except.error e
    | Except.ok (next_player, _) =>
      match next_player with
      | Option.some Color.W =>
        match pos1 with
        | Option.none => Except.error (PyErr.attributeError "player1turn")
        | Option.some p =>
          if p.player1turn then
            Except.ok (Option.some { p with player1turn := false })
          else
            Except.ok (Option.some p)
      | Option.some Color.B =>
        match pos1 with
        | Option.none => Except.error (PyErr.attributeError "player1turn")
        | Option.some p =>
          if !p.player1turn then
            Except.ok (Option.some { p with player1turn := true })
          else
            Except.ok (Option.some p)
      | Option.none => Except.ok pos1

/-- The record yielded per visited node
(src/sgf_wrapper.py lines 101-107, `PositionWithContext`). -/
structure PositionWithContext where
  position : Option Position
  next_move : Option String
  result : SgfVal

/-- `PositionWithContext.is_usable` (src/sgf_wrapper.py lines 106-107). -/
def PositionWithContext.is_usable (p : PositionWithContext) : Bool :=
  p.position.isSome && p.next_move.isSome && decide (p.result ≠ SgfVal.str "Void")

/-- The body of one `SgfWrapper.get_main_branch` loop iteration
(src/sgf_wrapper.py lines 95-97): setup stones, then move replay, then the
look-ahead for the emitted label; the first raised exception aborts it. -/
def stepNode (pos : Position) (node : Node) :
    Except PyErr (Option Position × Option String) :=
  match handle_add_stones pos node with
  | Except.error e => Except.error e
  | Except.ok pos1 =>
    match handle_play_stones pos1 node with
    | Except.error e => Except.error e
    | Except.ok pos2 =>
      match get_next_move node with
      | Except.error e => Except.error e
      | Except.ok (_, next_move) => Except.ok (pos2, next_move)

/-- The `SgfWrapper.get_main_branch` loop (src/sgf_wrapper.py lines 94-99)
on a present position and node, recursing while the loop guard
`pos is not None and current_node is not None` holds.  The walk returns the
list of records the generator yields before stopping, together with the
exception that aborted it, if any. -/
def walkNode (result : SgfVal) : Position → Node → List PositionWithContext × Option PyErr
  | pos, Node.last props =>
    match stepNode pos (Node.last props) with
    | Except.error e => ([], Option.some e)
    | Except.ok (pos2, next_move) => ([⟨pos2, next_move, result⟩], Option.none)
  | pos, Node.cons props n =>
    match stepNode pos (Node.cons props n) with
    | Except.error e => ([], Option.some e)
    | Except.ok (pos2, next_move) =>
      let r : PositionWithContext := ⟨pos2, next_move, result⟩
      match pos2 with
      | Option.some p2 =>
        let rest := walkNode result p2 n
        (r :: rest.1, rest.2)
      | Option.none => ([r], Option.none)

/-- The loop of `SgfWrapper.get_main_branch` (src/sgf_wrapper.py lines
93-99): the guard `pos is not None and current_node is not None` ends the
walk with no record in the first two cases; otherwise the body `walkNode`
runs. -/
def walkMain (result : SgfVal) :
    Option Position → Option Node → List PositionWithContext × Option PyErr
  | Option.none, _ => ([], Option.none)
  | Option.some _, Option.none => ([], Option.none)
  | Option.some pos, Option.some node => walkNode result pos node

/-- Modelled from the spec: Python `int(...)` applied to an `sgf_prop`
result; a non-string argument raises `TypeError`, a non-numeric string
raises `ValueError`. -/
def parseDigits : List Char → Option Nat
  | [] => Option.none
  | cs =>
    if cs.all Char.isDigit then
      Option.some (cs.foldl (fun a c => a * 10 + (c.toNat - 48)) 0)
    else
      Option.none

/-- Python `int` on an `sgf_prop` value. -/
def pyInt : SgfVal → Except PyErr Int
  | SgfVal.str s =>
    match s.data with
    | '-' :: rest =>
      match parseDigits rest with
      | Option.some n => Except.ok (-(n : Int))
      | Option.none => Except.error PyErr.valueError
    | cs =>
      match parseDigits cs with
      | Option.some n => Except.ok (n : Int)
      | Option.none => Except.error PyErr.valueError
  | _ => Except.error PyErr.typeError

/-- Split a character list at the first dot, if any. -/
def splitDot : List Char → List Char × Option (List Char)
  | [] => ([], Option.none)
  | c :: rest =>
    if c = '.' then ([], Option.some rest)
    else
      let p := splitDot rest
      (c :: p.1, p.2)

/-- Python `float` on an `sgf_prop` value, as an exact rational. -/
def pyFloat : SgfVal → Except PyErr Rat
  | SgfVal.str s =>
    let signed : Bool × List Char :=
      match s.data with
      | '-' :: rest => (true, rest)
      | cs => (false, cs)
    match splitDot signed.2 with
    | (ip, Option.none) =>
      match parseDigits ip with
      | Option.some n =>
        Except.ok (mkRat (if signed.1 then -(n : Int) else (n : Int)) 1)
      | Option.none => Except.error PyErr.valueError
    | (ip, Option.some fp) =>
      if ip.all Char.isDigit ∧ fp.all Char.isDigit ∧ (ip ≠ [] ∨ fp ≠ []) then
        let ipn : Nat := ip.foldl (fun a c => a * 10 + (c.toNat - 48)) 0
        let fpn : Nat := fp.foldl (fun a c => a * 10 + (c.toNat - 48)) 0
        let num : Nat := ipn * 10 ^ fp.length + fpn
        Except.ok (mkRat (if signed.1 then -(num : Int) else (num : Int)) (10 ^ fp.length))
      else
        Except.error PyErr.valueError
  | _ => Except.error PyErr.typeError

/-- The wrapper object built by `SgfWrapper.__init__`
(src/sgf_wrapper.py lines 80-88). -/
structure SgfWrapper where
  gameRoot : Node
  result : SgfVal
  komi : Rat
  board_size : Int

/-- `SgfWrapper.__init__` (src/sgf_wrapper.py lines 80-88), taking the
already-parsed game root (text parsing is the external `sgf` library).  The
game-type assertion runs first; then the result, komi and board size
properties are decoded.  Any failure aborts construction with no partial
object. -/
def SgfWrapper.init (root : Node) : Except PyErr SgfWrapper :=
  let props := root.properties
  match pyInt (sgf_prop (Option.some ((props.lookup "GM").getD ["1"]))) with
  | Except.error e => Except.error e
  | Except.ok gm =>
    if gm = 1 then
      let result := sgf_prop (props.lookup "RE")
      match pyFloat (sgf_prop (props.lookup "KM")) with
      | Except.error e => Except.error e
      | Except.ok komi =>
        match pyInt (sgf_prop (props.lookup "SZ")) with
        | Except.error e => Except.error e
        | Except.ok bsz =>
          Except.ok { gameRoot := root, result := result, komi := komi, board_size := bsz }
    else
      Except.error (PyErr.assertionError "Not a Go SGF!")

/-- `SgfWrapper.get_main_branch` (src/sgf_wrapper.py lines 90-99): start from
the initial position with the wrapper's komi and walk the main branch from
the root. -/
def SgfWrapper.get_main_branch (w : SgfWrapper) :
    List PositionWithContext × Option PyErr :=
  walkMain w.result (Option.some { Position.initial_state with komi := w.komi })
    (Option.some w.gameRoot)

/-- The two setup-stone loops of `handle_add_stones` over already-decoded
coordinates: place every coordinate of the list with the given color, in
declaration order. -/
def foldPlace (color : Int) (board : Board) (cs : List Coord) : Board :=
  cs.foldl (fun b c => place_stone b color c) board

/-! Concrete game fixtures used to settle the claims on explicit inputs. -/

/-- A two-node game: root with game type 1, komi 6.5, board size 9, and one
child playing Black at the raw coordinate "cc" (decoding to (2, 2)). -/
def twoNodeChild : Node := Node.last [("B", ["cc"])]

/-- Root of the two-node game. -/
def twoNodeRoot : Node :=
  Node.cons [("GM", ["1"]), ("KM", ["6.5"]), ("SZ", ["9"])] twoNodeChild

/-- A node whose next child has neither a `W` nor a `B` property. -/
def noMoveChildNode : Node :=
  Node.cons [] (Node.last [("C", ["hi"])])

/-- A node with no move of its own whose next child records a White move. -/
def whiteNextNode : Node :=
  Node.cons [] (Node.last [("W", ["ab"])])

/-- A board carrying a single black stone at (2, 2). -/
def oneStoneBoard : Board := place_stone (fun _ => 0) 1 (2, 2)

/-- A position in which (2, 2) is already occupied, so that replaying a
Black move at raw coordinate "cc" is illegal. -/
def occupiedPos : Position :=
  { board := oneStoneBoard
    groups := deduce_groups oneStoneBoard
    player1turn := true
    komi := 0 }

/-- A node replaying Black at the occupied point (2, 2), with no next child:
the illegal move sits at the tail of the branch. -/
def illegalTailNode : Node := Node.last [("B", ["cc"])]

/-- Third node of the illegal-midgame game: White at "ce". -/
def illegalMidChild3 : Node := Node.last [("W", ["ce"])]

/-- Second node of the illegal-midgame game: Black repeats the occupied
point "cc" (illegal), and a further White move follows. -/
def illegalMidChild2 : Node := Node.cons [("B", ["cc"])] illegalMidChild3

/-- First move node of the illegal-midgame game: Black plays "cc". -/
def illegalMidChild1 : Node := Node.cons [("B", ["cc"])] illegalMidChild2

/-- Root of the illegal-midgame game: a well-formed header followed by
Black "cc", Black "cc" again (illegal), then White "ce". -/
def illegalMidRoot : Node :=
  Node.cons [("GM", ["1"]), ("KM", ["6.5"]), ("SZ", ["9"])] illegalMidChild1

/-- Free-handicap fixture, third node: White plays "ce". -/
def freeHandicapNode3 : Node := Node.last [("W", ["ce"])]

/-- Free-handicap fixture, second node: Black plays "cd", White follows. -/
def freeHandicapNode2 : Node := Node.cons [("B", ["cd"])] freeHandicapNode3

/-- Free-handicap fixture, first node: Black plays "cc", Black follows. -/
def freeHandicapNode1 : Node := Node.cons [("B", ["cc"])] freeHandicapNode2

/-- A node with two black setup stones at raw coordinates "ab" and "bb". -/
def addStonesNode : Node := Node.last [("AB", ["ab", "bb"])]

/-- The board obtained by the two setup placements of `addStonesNode`. -/
def twoStoneBoard : Board :=
  place_stone (place_stone (fun _ => 0) 1 (1, 0)) 1 (1, 1)

/-- Pass-lookahead fixture, tail node: White plays "ab". -/
def passTail : Node := Node.last [("W", ["ab"])]

/-- Pass-lookahead fixture, middle node: Black passes (empty raw value). -/
def passNode : Node := Node.cons [("B", [""])] passTail

/-- Pass-lookahead fixture root: well-formed header, then a Black pass,
then a White move. -/
def passRoot : Node :=
  Node.cons [("GM", ["1"]), ("KM", ["6.5"]), ("SZ", ["9"])] passNode

/-! ## Theorems settling the claims -/

/-- Claim C5, counterexample: `sgf_prop` on a present-but-empty value list
returns the empty list itself, not the absent value, refuting "returns
absent if the list is missing or empty". -/
theorem sgf_prop_empty_list_not_absent :
    sgf_prop (Option.some []) = SgfVal.list [] ∧ SgfVal.list [] ≠ SgfVal.none :=
  ⟨rfl, by decide⟩

/-- Claim C5, amended: `sgf_prop` returns absent exactly when the value list
is missing; a one-element list yields its single element; any other list —
the empty list included — is returned whole.  The function is total, so it
has no error conditions, and it is pure. -/
theorem sgf_prop_spec :
    sgf_prop Option.none = SgfVal.none ∧
    (∀ v : String, sgf_prop (Option.some [v]) = SgfVal.str v) ∧
    (∀ l : List String, l.length ≠ 1 → sgf_prop (Option.some l) = SgfVal.list l) := by
  refine ⟨rfl, fun v => rfl, fun l hl => ?_⟩
  match l with
  | [] => rfl
  | [v] => exact absurd rfl hl
  | v :: w :: t => rfl

/-- Claim C5, witness for the amended theorem at the two-element list. -/
theorem sgf_prop_spec_witness :
    (["a", "b"] : List String).length ≠ 1 ∧
    sgf_prop (Option.some ["a", "b"]) = SgfVal.list ["a", "b"] :=
  ⟨by decide, sgf_prop_spec.2.2 ["a", "b"] (by decide)⟩

/-- Claim C6: a record is usable exactly when the position is present, the
next move is present, and the result is not the sentinel "Void". -/
theorem is_usable_iff (p : PositionWithContext) :
    p.is_usable = true ↔
      (p.position ≠ Option.none ∧ p.next_move ≠ Option.none ∧
        p.result ≠ SgfVal.str "Void") := by
  simp [PositionWithContext.is_usable, Option.isSome_iff_ne_none, and_assoc]

/-- Claim C2, counterexample: on a node whose next child has neither a `W`
nor a `B` property, `get_next_move` raises `KeyError` rather than returning
(Black, absent) without error. -/
theorem get_next_move_missing_props_keyerror :
    get_next_move noMoveChildNode = Except.error (PyErr.keyError "B") ∧
    get_next_move noMoveChildNode ≠ Except.ok (Option.some Color.B, Option.none) :=
  ⟨rfl, fun h => Except.noConfusion h⟩

/-- Claim C2, amended: `get_next_move` returns (absent, absent) when there
is no next child; (White, raw value or absent for the empty pass value) when
the next child has a `W` property; (Black, likewise) when it has a `B`
property but no `W`; and it fails with `KeyError` on the `B` lookup when the
next child has neither property. -/
theorem get_next_move_spec :
    (∀ node : Node, node.next = Option.none →
       get_next_move node = Except.ok (Option.none, Option.none)) ∧
    (∀ (node nxt : Node) (v : String) (t : List String),
       node.next = Option.some nxt →
       nxt.properties.lookup "W" = Option.some (v :: t) →
       get_next_move node =
         Except.ok (Option.some Color.W,
           if v = "" then Option.none else Option.some v)) ∧
    (∀ (node nxt : Node) (v : String) (t : List String),
       node.next = Option.some nxt →
       nxt.properties.lookup "W" = Option.none →
       nxt.properties.lookup "B" = Option.some (v :: t) →
       get_next_move node =
         Except.ok (Option.some Color.B,
           if v = "" then Option.none else Option.some v)) ∧
    (∀ (node nxt : Node),
       node.next = Option.some nxt →
       nxt.properties.lookup "W" = Option.none →
       nxt.properties.lookup "B" = Option.none →
       get_next_move node = Except.error (PyErr.keyError "B")) :=
  ⟨fun node h1 => by simp [get_next_move, h1],
    fun node nxt v t h1 h2 => by simp [get_next_move, h1, h2],
    fun node nxt v t h1 h2 h3 => by simp [get_next_move, h1, h2, h3],
    fun node nxt h1 h2 h3 => by simp [get_next_move, h1, h2, h3]⟩

/-- Claim C2, witness for the amended theorem: a next child carrying a White
move at "ab". -/
theorem get_next_move_spec_witness :
    whiteNextNode.next = Option.some (Node.last [("W", ["ab"])]) ∧
    (Node.last [("W", ["ab"])]).properties.lookup "W" = Option.some ["ab"] ∧
    get_next_move whiteNextNode = Except.ok (Option.some Color.W, Option.some "ab") :=
  ⟨rfl, rfl,
    get_next_move_spec.2.1 whiteNextNode (Node.last [("W", ["ab"])]) "ab" [] rfl rfl⟩

/-- Claim C7: if the root's decoded game-type value is an integer other than
1, construction fails with the "Not a Go SGF!" assertion before anything
else is produced; in particular it fails on a root with game type 2. -/
theorem init_rejects_non_go :
    (∀ (root : Node) (n : Int),
       pyInt (sgf_prop (Option.some ((root.properties.lookup "GM").getD ["1"]))) =
         Except.ok n →
       n ≠ 1 →
       SgfWrapper.init root = Except.error (PyErr.assertionError "Not a Go SGF!")) ∧
    SgfWrapper.init (Node.last [("GM", ["2"])]) =
      Except.error (PyErr.assertionError "Not a Go SGF!") := by
  refine ⟨fun root n h hn => ?_, rfl⟩
  simp [SgfWrapper.init, h, hn]

/-- Claim C7, witness at the concrete game-type-2 root. -/
theorem init_rejects_non_go_witness :
    pyInt (sgf_prop (Option.some
        (((Node.last [("GM", ["2"])]).properties.lookup "GM").getD ["1"]))) =
      Except.ok 2 ∧
    (2 : Int) ≠ 1 ∧
    SgfWrapper.init (Node.last [("GM", ["2"])]) =
      Except.error (PyErr.assertionError "Not a Go SGF!") :=
  ⟨rfl, by decide,
    init_rejects_non_go.1 (Node.last [("GM", ["2"])]) 2 rfl (by decide)⟩

/-- Claim C1: whenever `handle_play_stones` succeeds with a present
position, the turn indicator of the result agrees with the next node's
recorded absolute color — White to move (`player1turn = false`) when the
next recorded color is White, Black to move when it is Black — and on the
free-handicap sequence Black "cc", Black "cd", White "ce", the indicator
after replaying the second Black move reads White to move. -/
theorem handle_play_stones_turn_correction :
    (∀ (pos : Position) (node : Node) (p : Position) (m : Option String),
       get_next_move node = Except.ok (Option.some Color.W, m) →
       handle_play_stones pos node = Except.ok (Option.some p) →
       p.player1turn = false) ∧
    (∀ (pos : Position) (node : Node) (p : Position) (m : Option String),
       get_next_move node = Except.ok (Option.some Color.B, m) →
       handle_play_stones pos node = Except.ok (Option.some p) →
       p.player1turn = true) ∧
    (∃ pA pB : Position,
       handle_play_stones Position.initial_state freeHandicapNode1 =
         Except.ok (Option.some pA) ∧
       pA.player1turn = true ∧
       handle_play_stones pA freeHandicapNode2 = Except.ok (Option.some pB) ∧
       pB.player1turn = false) := by
  refine ⟨?_, ?_, ?_⟩
  · intro pos node p m h1 h2
    unfold handle_play_stones at h2
    rw [h1] at h2
    cases hp : playRecorded pos node with
    | error e => rw [hp] at h2; exact Except.noConfusion h2
    | ok pos1 =>
      rw [hp] at h2
      cases pos1 with
      | none => exact Except.noConfusion h2
      | some q =>
        by_cases hq : q.player1turn
        · simp [hq] at h2
          rw [← h2]
        · simp [hq] at h2
          rw [← h2]
          simp only [Bool.not_eq_true] at hq
          exact hq
  · intro pos node p m h1 h2
    unfold handle_play_stones at h2
    rw [h1] at h2
    cases hp : playRecorded pos node with
    | error e => rw [hp] at h2; exact Except.noConfusion h2
    | ok pos1 =>
      rw [hp] at h2
      cases pos1 with
      | none => exact Except.noConfusion h2
      | some q =>
        by_cases hq : q.player1turn
        · simp [hq] at h2
          rw [← h2]
          exact hq
        · simp [hq] at h2
          rw [← h2]
  · exact ⟨_, _, rfl, rfl, rfl, rfl⟩

/-- Claim C1, witness: a node with no move of its own whose next child
records a White move; the correction flips the initial position's
Black-to-move flag to White-to-move. -/
theorem handle_play_stones_turn_correction_witness :
    get_next_move whiteNextNode = Except.ok (Option.some Color.W, Option.some "ab") ∧
    handle_play_stones Position.initial_state whiteNextNode =
      Except.ok (Option.some { Position.initial_state with player1turn := false }) ∧
    ({ Position.initial_state with player1turn := false } : Position).player1turn = false :=
  ⟨rfl, rfl,
    handle_play_stones_turn_correction.1 Position.initial_state whiteNextNode
      { Position.initial_state with player1turn := false } (Option.some "ab") rfl rfl⟩

/-- Claim C8: a node with no `AB` and no `AW` property leaves the position
untouched — `handle_add_stones` returns the identical input value — while a
node whose setup lists place at least one stone yields the position with the
worked board and group metadata freshly recomputed from that board. -/
theorem handle_add_stones_spec :
    (∀ (pos : Position) (node : Node),
       node.properties.lookup "AB" = Option.none →
       node.properties.lookup "AW" = Option.none →
       handle_add_stones pos node = Except.ok pos) ∧
    (∀ (pos : Position) (node : Node) (bs ws : List String) (b1 b2 : Board),
       (node.properties.lookup "AB").getD [] = bs →
       (node.properties.lookup "AW").getD [] = ws →
       bs ≠ [] ∨ ws ≠ [] →
       placeAll 1 pos.board bs = Except.ok b1 →
       placeAll (-1) b1 ws = Except.ok b2 →
       handle_add_stones pos node =
         Except.ok { pos with board := b2, groups := deduce_groups b2 }) :=
  ⟨fun pos node h1 h2 => by simp [handle_add_stones, h1, h2, placeAll],
    fun pos node bs ws b1 b2 h1 h2 hne h3 h4 => by
      simp [handle_add_stones, h1, h2, h3, h4, hne]⟩

/-- Claim C8, witness: the empty-setup identity at a node with only a `B`
property, and the two-stone setup node placing "ab" and "bb". -/
theorem handle_add_stones_spec_witness :
    handle_add_stones occupiedPos twoNodeChild = Except.ok occupiedPos ∧
    placeAll 1 Position.initial_state.board ["ab", "bb"] = Except.ok twoStoneBoard ∧
    placeAll (-1) twoStoneBoard [] = Except.ok twoStoneBoard ∧
    handle_add_stones Position.initial_state addStonesNode =
      Except.ok { Position.initial_state with
                    board := twoStoneBoard, groups := deduce_groups twoStoneBoard } :=
  ⟨handle_add_stones_spec.1 occupiedPos twoNodeChild rfl rfl, rfl, rfl,
    handle_add_stones_spec.2 Position.initial_state addStonesNode ["ab", "bb"] []
      twoStoneBoard twoStoneBoard rfl rfl (Or.inl (by decide)) rfl rfl⟩

/-- Evaluating a setup-stone fold at a point: the point holds the setup
color when it occurs in the list, and its previous content otherwise. -/
theorem foldPlace_apply (color : Int) (cs : List Coord) (b : Board) (x : Coord) :
    foldPlace color b cs x = if x ∈ cs then color else b x := by
  induction cs generalizing b with
  | nil => simp [foldPlace]
  | cons c rest ih =>
    simp only [foldPlace, List.foldl_cons] at ih ⊢
    rw [ih]
    by_cases hx : x ∈ rest
    · simp [hx]
    · by_cases hc : x = c <;> simp [place_stone, hx, hc]

/-- Claim C9: with no coordinate shared between the black and white setup
lists, placing all black setup stones and then all white ones produces the
same board as the reverse order. -/
theorem setup_stones_commute :
    ∀ (b : Board) (blacks whites : List Coord),
      (∀ c, c ∈ blacks → c ∉ whites) →
      foldPlace (-1) (foldPlace 1 b blacks) whites =
        foldPlace 1 (foldPlace (-1) b whites) blacks := by
  intro b blacks whites hdis
  funext x
  rw [foldPlace_apply, foldPlace_apply, foldPlace_apply, foldPlace_apply]
  by_cases hw : x ∈ whites
  · have hb : x ∉ blacks := fun hb => hdis x hb hw
    simp [hw, hb]
  · by_cases hb : x ∈ blacks <;> simp [hw, hb]

/-- Claim C9, witness: a black stone at (0, 0) and a white stone at (1, 1)
commute. -/
theorem setup_stones_commute_witness :
    (∀ c : Coord, c ∈ [((0, 0) : Coord)] → c ∉ [((1, 1) : Coord)]) ∧
    foldPlace (-1) (foldPlace 1 (fun _ => 0) [((0, 0) : Coord)]) [((1, 1) : Coord)] =
      foldPlace 1 (foldPlace (-1) (fun _ => 0) [((1, 1) : Coord)]) [((0, 0) : Coord)] :=
  ⟨by decide, setup_stones_commute (fun _ => 0) [(0, 0)] [(1, 1)] (by decide)⟩

/-- Claim C3, counterexample: in the game Black "cc", Black "cc" again
(illegal: the point is occupied), White "ce", the walker does not treat the
absent position as a normal terminal condition — it stops with an
`AttributeError` after emitting only the two earlier records, and no record
is emitted for the illegal node. -/
theorem illegal_move_midgame_raises :
    ∃ w : SgfWrapper,
      SgfWrapper.init illegalMidRoot = Except.ok w ∧
      w.get_main_branch.2 = Option.some (PyErr.attributeError "player1turn") ∧
      w.get_main_branch.1.length = 2 :=
  ⟨_, rfl, rfl, rfl⟩

/-- Claim C3, amended: when a node's recorded move is illegal (`play_move`
returns an absent position) and the node's look-ahead records no next
player, the walk raises no fault: that node's record is still emitted, with
an absent position, and the walk then ends with no error; records emitted
before that point are untouched since the walk only appends.  When the
look-ahead does record a next color, the walker instead raises
`AttributeError` (see the counterexample). -/
theorem illegal_move_truncates_at_tail :
    ∀ (result : SgfVal) (pos pos1 : Position) (node : Node) (m : Option String),
      handle_add_stones pos node = Except.ok pos1 →
      handle_play_stones pos1 node = Except.ok Option.none →
      get_next_move node = Except.ok (Option.none, m) →
      walkMain result (Option.some pos) (Option.some node) =
        ([⟨Option.none, m, result⟩], Option.none) := by
  intro result pos pos1 node m h1 h2 h3
  have hs : stepNode pos node = Except.ok (Option.none, m) := by
    simp [stepNode, h1, h2, h3]
  cases node <;> simp [walkMain, walkNode, hs]

/-- Claim C3, witness: replaying Black "cc" on the occupied point with no
next child — the record with absent position is emitted, the walk ends, no
fault. -/
theorem illegal_move_truncates_at_tail_witness :
    handle_add_stones occupiedPos illegalTailNode = Except.ok occupiedPos ∧
    handle_play_stones occupiedPos illegalTailNode = Except.ok Option.none ∧
    get_next_move illegalTailNode = Except.ok (Option.none, Option.none) ∧
    walkMain SgfVal.none (Option.some occupiedPos) (Option.some illegalTailNode) =
      ([⟨Option.none, Option.none, SgfVal.none⟩], Option.none) :=
  ⟨rfl, rfl, rfl,
    illegal_move_truncates_at_tail SgfVal.none occupiedPos occupiedPos
      illegalTailNode Option.none rfl rfl rfl⟩

/-- Claim C4: on the two-node game (board size 9, komi 6.5, game type 1,
one child playing Black at "cc"), construction succeeds with komi 13/2 and
board size 9, and the main branch yields exactly two records: the first with
next move "cc" and the initial empty position (komi aside, set from the
root), the second with an absent next move and the board carrying exactly
the single black stone at (2, 2), White to move. -/
theorem main_branch_two_node_end_to_end :
    ∃ w : SgfWrapper,
      SgfWrapper.init twoNodeRoot = Except.ok w ∧
      w.komi = mkRat 13 2 ∧
      w.board_size = 9 ∧
      ∃ r0 r1 : PositionWithContext,
        w.get_main_branch = ([r0, r1], Option.none) ∧
        r0.next_move = Option.some "cc" ∧
        r0.position =
          Option.some { Position.initial_state with komi := mkRat 13 2 } ∧
        r1.next_move = Option.none ∧
        ∃ p1 : Position,
          r1.position = Option.some p1 ∧
          p1.board = place_stone (fun _ => 0) 1 (2, 2) ∧
          p1.player1turn = false := by
  refine ⟨_, rfl, by decide, by decide, _, _, rfl, rfl, ?_, rfl, _, rfl, ?_, rfl⟩
  · rfl
  · rfl

/-- Claim C10: a next child recording a move with the empty raw value (a
pass) makes `get_next_move` report an absent coordinate, so the record
emitted for the current node is unusable, while the walk continues past the
pass node: in the game with header, Black pass, White "ab", three records
are emitted without error, the first with an absent next move, unusable,
though its position is present. -/
theorem pass_lookahead_unusable :
    (∀ (node nxt : Node) (t : List String),
       node.next = Option.some nxt →
       nxt.properties.lookup "W" = Option.some ("" :: t) →
       get_next_move node = Except.ok (Option.some Color.W, Option.none)) ∧
    (∀ (node nxt : Node) (t : List String),
       node.next = Option.some nxt →
       nxt.properties.lookup "W" = Option.none →
       nxt.properties.lookup "B" = Option.some ("" :: t) →
       get_next_move node = Except.ok (Option.some Color.B, Option.none)) ∧
    (∀ r : PositionWithContext, r.next_move = Option.none → r.is_usable = false) ∧
    (∃ w : SgfWrapper,
       SgfWrapper.init passRoot = Except.ok w ∧
       ∃ r0 r1 r2 : PositionWithContext,
         w.get_main_branch = ([r0, r1, r2], Option.none) ∧
         r0.next_move = Option.none ∧
         r0.is_usable = false ∧
         r0.position.isSome = true) := by
  refine ⟨fun node nxt t h1 h2 => by simp [get_next_move, h1, h2],
    fun node nxt t h1 h2 h3 => by simp [get_next_move, h1, h2, h3],
    fun r h => by simp [PositionWithContext.is_usable, h],
    ⟨_, rfl, _, _, _, rfl, rfl, ?_, rfl⟩⟩
  rfl

/-- Claim C10, witness: the pass node fixture, where Black's recorded value
is empty. -/
theorem pass_lookahead_unusable_witness :
    passNode.next = Option.some passTail ∧
    passTail.properties.lookup "W" = Option.some ["ab"] ∧
    passRoot.next = Option.some passNode ∧
    passNode.properties.lookup "W" = Option.none ∧
    passNode.properties.lookup "B" = Option.some [""] ∧
    get_next_move passRoot = Except.ok (Option.some Color.B, Option.none) :=
  ⟨rfl, rfl, rfl, rfl, rfl,
    pass_lookahead_unusable.2.1 passRoot passNode [] rfl rfl rfl⟩

end MuGo
